import Mathlib

/-!
# Verification of the OMLog2Heatmap log parser

Shallow embedding of `src/OM2Log2Heatmap.py` (functions `detect_num_roots`,
`parse_ras_weights`, the label mapper and the energy-difference logic of
`main`).  Lines of the log file are modelled as `List Char`; Python floats
are modelled as exact rationals (`ℚ`); Python exceptions that escape a
function are modelled with `Except PyErr`.

Modelling conventions, noted once here:
* `str.split()` (no argument) splits on runs of whitespace and drops empty
  tokens; whitespace is modelled as the six ASCII whitespace characters
  matched by Python's `\s` on ASCII text (unicode whitespace is not
  modelled).
* `\d` of the regexes is modelled as the ASCII digits (unicode digits are
  not modelled).
* `int(tok)` / `float(tok)` are modelled on sign/digit/dot/exponent
  literals; Python's underscore separators and the `inf` / `nan` spellings
  of `float` are not modelled (they have no rational value).
* The configuration regexes
  `^\s*\d+\s+[\dud\*]+\s+[-\d.]+\s+[\d.]+` (line 89) and its grouped twin
  (line 93) are concatenations of character-class `+`-runs alternating
  with `\s+` where every adjacent pair of classes is disjoint, so greedy
  matching never backtracks: the regex is equivalent to the deterministic
  maximal-munch tokenizer `configMatch` below.
-/

/-- The six characters matched by Python's `\s` on ASCII text. -/
def isSpaceA (c : Char) : Bool :=
  c == ' ' || c == '\t' || c == '\n' || c == '\r' || c == '\x0b' || c == '\x0c'

/-- ASCII digit test, model of the regex class `\d`. -/
def isDigitA (c : Char) : Bool :=
  '0' ≤ c && c ≤ '9'

/-- The regex class `[\dud\*]` (configuration-token characters). -/
def isCfgChar (c : Char) : Bool :=
  isDigitA c || c == 'u' || c == 'd' || c == '*'

/-- The regex class `[-\d.]` (signed-decimal characters, field 3). -/
def isG3Char (c : Char) : Bool :=
  c == '-' || isDigitA c || c == '.'

/-- The regex class `[\d.]` (decimal characters, field 4). -/
def isG4Char (c : Char) : Bool :=
  isDigitA c || c == '.'

/-- A log line as a list of characters. -/
abbrev Line := List Char

/-- Shorthand turning a string literal into a modelled line. -/
def str (s : String) : Line := s.data

/-- `p` is a leading segment of `l`. -/
def isPrefixL : List Char → List Char → Bool
  | [], _ => true
  | _ :: _, [] => false
  | p :: ps, c :: cs => p == c && isPrefixL ps cs

/-- Model of Python's substring test `pat in s`. -/
def containsSub (pat : List Char) : List Char → Bool
  | [] => isPrefixL pat []
  | c :: cs => isPrefixL pat (c :: cs) || containsSub pat cs

/-- Model of Python's `str.strip()`: drop whitespace from both ends. -/
def pyStrip (l : Line) : Line :=
  ((l.dropWhile isSpaceA).reverse.dropWhile isSpaceA).reverse

/-- Helper for `pySplitWS`, accumulating the current token reversed. -/
def pySplitAux : List Char → List Char → List (List Char)
  | [], acc => if acc.isEmpty then [] else [acc.reverse]
  | c :: cs, acc =>
    if isSpaceA c then
      if acc.isEmpty then pySplitAux cs [] else acc.reverse :: pySplitAux cs []
    else pySplitAux cs (c :: acc)

/-- Model of Python's `str.split()` with no argument: split on runs of
whitespace, dropping empty tokens. -/
def pySplitWS (l : Line) : List (List Char) :=
  pySplitAux l []

/-- Model of Python's `str.lower()` (ASCII). -/
def toLowerL (l : Line) : Line :=
  l.map Char.toLower

/-- Decimal digits to a natural number. -/
def digitsToNat (l : List Char) : Nat :=
  l.foldl (fun n c => n * 10 + (c.toNat - '0'.toNat)) 0

/-- Unsigned part of Python's `int(tok)`: a nonempty all-digit token. -/
def pyIntCore (l : List Char) : Option Nat :=
  if l.isEmpty || !(l.all isDigitA) then none else some (digitsToNat l)

/-- Model of Python's `int(tok)` on a whitespace-free token: optional sign
followed by a nonempty digit run, else `ValueError` (`none`). -/
def pyInt : List Char → Option Int
  | '-' :: rest => (pyIntCore rest).map (fun n => -(n : Int))
  | '+' :: rest => (pyIntCore rest).map (fun n => (n : Int))
  | l => (pyIntCore l).map (fun n => (n : Int))

/-- Exponent tail of a float literal: empty, or `e`/`E` then an optionally
signed nonempty digit run consuming the whole remainder. -/
def pyExpSigned : List Char → Option Int
  | '+' :: r => (pyIntCore r).map (fun n => (n : Int))
  | '-' :: r => (pyIntCore r).map (fun n => -(n : Int))
  | r => (pyIntCore r).map (fun n => (n : Int))

/-- Accept the remainder after the mantissa of a float literal. -/
def pyExpTail : List Char → Option Int
  | [] => some 0
  | 'e' :: rest => pyExpSigned rest
  | 'E' :: rest => pyExpSigned rest
  | _ => none

/-- Unsigned part of Python's `float(tok)` as an exact rational. -/
def pyFloatCore (l : List Char) : Option ℚ :=
  let ip := l.takeWhile isDigitA
  let r1 := l.dropWhile isDigitA
  let fp := match r1 with
            | '.' :: r => r.takeWhile isDigitA
            | _ => []
  let r2 := match r1 with
            | '.' :: r => r.dropWhile isDigitA
            | _ => r1
  if ip.isEmpty && fp.isEmpty then none
  else
    match pyExpTail r2 with
    | none => none
    | some e =>
      some (((digitsToNat ip : ℚ) + (digitsToNat fp : ℚ) / (10 : ℚ) ^ fp.length)
              * (10 : ℚ) ^ e)

/-- Model of Python's `float(tok)` on a whitespace-free token, as an exact
rational (`none` models `ValueError`). -/
def pyFloat : List Char → Option ℚ
  | '-' :: rest => (pyFloatCore rest).map (fun q => -q)
  | '+' :: rest => pyFloatCore rest
  | l => pyFloatCore l

/-- Deterministic matcher equivalent to
`re.match(r'^\s*(\d+)\s+([\dud\*]+)\s+([-\d.]+)\s+([\d.]+)', line)`
(see the header note on why greedy matching is deterministic here).
Returns the four captured groups. -/
def configMatch (l : Line) : Option (List Char × List Char × List Char × List Char) :=
  let l0 := l.dropWhile isSpaceA
  let g1 := l0.takeWhile isDigitA
  let r1 := l0.dropWhile isDigitA
  if g1.isEmpty then none else
  let w1 := r1.takeWhile isSpaceA
  let r2 := r1.dropWhile isSpaceA
  if w1.isEmpty then none else
  let g2 := r2.takeWhile isCfgChar
  let r3 := r2.dropWhile isCfgChar
  if g2.isEmpty then none else
  let w2 := r3.takeWhile isSpaceA
  let r4 := r3.dropWhile isSpaceA
  if w2.isEmpty then none else
  let g3 := r4.takeWhile isG3Char
  let r5 := r4.dropWhile isG3Char
  if g3.isEmpty then none else
  let w3 := r5.takeWhile isSpaceA
  let r6 := r5.dropWhile isSpaceA
  if w3.isEmpty then none else
  let g4 := r6.takeWhile isG4Char
  if g4.isEmpty then none else
  some (g1, g2, g3, g4)

/-- The phrases the parser looks for (source lines 48, 71, 77, 110, 112). -/
def cirootKey : Line := str ("ciroot")

/-- Root-start trigger phrase (source line 71). -/
def rootPhrase : Line := str ("printout of CI-coefficients larger than")

/-- Energy-line marker (source line 77). -/
def energyKey : Line := str ("energy=")

/-- Section-end phrase (source line 110). -/
def naturalPhrase : Line := str ("Natural orbitals and occupation numbers")

/-- Dash separator (source line 112). -/
def dashes4 : Line := str ("----")

/-- Equals separator (source line 112). -/
def equals4 : Line := str ("====")

/-- Python exceptions that escape the modelled functions. -/
inductive PyErr where
  | typeError
  | valueError
  | indexError
  | keyError
  | stopIteration
  deriving DecidableEq, Repr

/-- Per-root record: `{'configs': {}, 'energy': None}` (source line 63).
The configuration dict is an insertion-ordered association list. -/
structure RootRec where
  configs : List (List Char × ℚ)
  energy : Option ℚ
  deriving DecidableEq, Repr

/-- First-match lookup in an association list (Python dict read). -/
def lookupKey {α β : Type} [DecidableEq α] (l : List (α × β)) (k : α) : Option β :=
  match l with
  | [] => none
  | (k', v) :: rest => if k' = k then some v else lookupKey rest k

/-- Python dict write `d[k] = v`: overwrite in place, else append. -/
def setKey {α β : Type} [DecidableEq α] (l : List (α × β)) (k : α) (v : β) :
    List (α × β) :=
  match l with
  | [] => [(k, v)]
  | (k', v') :: rest => if k' = k then (k, v) :: rest else (k', v') :: setKey rest k v

/-- Mutable state of the parsing loop (source lines 63-66). -/
structure PState where
  roots : List (Int × RootRec)
  current_root : Int
  config_count : Nat
  in_config_section : Bool
  deriving DecidableEq, Repr

/-- Model of `detect_num_roots` (source lines 44-58).  `none` models the
bare `return` (Python `None`) taken when no line contains `ciroot`. -/
def detect_num_roots (lines : List Line) : Option Int :=
  match lines.find? (fun l => containsSub cirootKey (toLowerL l)) with
  | none => none
  | some line =>
    match (pySplitWS line)[2]? with
    | none => some 7
    | some tok =>
      match pyInt tok with
      | none => some 7
      | some n => some n

/-- Energy capture on the line after a root-start line (source lines
76-82): `IndexError` / `ValueError` are caught (energy stays unset), but a
missing key `r` in `roots` raises an uncaught `KeyError`. -/
def energyStep (nl : Line) (r : Int) (roots : List (Int × RootRec)) :
    Except PyErr (List (Int × RootRec)) :=
  if containsSub energyKey nl then
    match (pySplitWS nl)[1]? with
    | none => .ok roots
    | some etok =>
      match pyFloat etok with
      | none => .ok roots
      | some e =>
        match lookupKey roots r with
        | none => .error .keyError
        | some rec => .ok (setKey roots r { rec with energy := some e })
  else .ok roots

/-- Configuration-line handling (source lines 88-113).  The first guard is
line 89's groupless regex; the `none` arm of the inner match is lines
109-113, which re-test the same pattern and so are unreachable. -/
def configStep (th : ℚ) (line : Line) (s : PState) : Except PyErr PState :=
  if !(configMatch (pyStrip line)).isSome then .ok s
  else
    match configMatch (pyStrip line) with
    | some (_g1, conf, g3, g4) =>
      if conf.length ≠ 14 then .ok s
      else
        match pyFloat g3 with
        | none => .ok s
        | some coeff =>
          match pyFloat g4 with
          | none => .ok s
          | some w4 =>
            if th ≤ |coeff| then
              match lookupKey s.roots s.current_root with
              | none => .error .keyError
              | some rec =>
                .ok { s with
                        roots := setKey s.roots s.current_root
                          { rec with configs := setKey rec.configs conf (w4 * 100) },
                        config_count := s.config_count + 1 }
            else .ok s
    | none =>
      if containsSub naturalPhrase line then .ok { s with in_config_section := false }
      else if containsSub dashes4 line || containsSub equals4 line then
        .ok { s with in_config_section := false }
      else .ok s

/-- The line loop of `parse_ras_weights` (source lines 69-113).  A
root-start line consumes the following line via `next(f)`; at end of file
that raises an uncaught `StopIteration`. -/
def processLines (th : ℚ) : List Line → PState → Except PyErr PState
  | [], s => .ok s
  | line :: rest, s =>
    if containsSub rootPhrase line then
      match (pySplitWS line).getLast? with
      | none => .error .indexError
      | some tok =>
        match pyInt tok with
        | none => .error .valueError
        | some r =>
          match rest with
          | [] => .error .stopIteration
          | nl :: rest' =>
            match energyStep nl r s.roots with
            | .error e => .error e
            | .ok roots' =>
              processLines th rest'
                { roots := roots', current_root := r, config_count := 0,
                  in_config_section := true }
    else if s.in_config_section ∧ s.current_root > 0 then
      match configStep th line s with
      | .error e => .error e
      | .ok s' => processLines th rest s'
    else processLines th rest s

/-- `roots = {i: {'configs': {}, 'energy': None} for i in range(1, n+1)}`
(source line 63). -/
def initRoots (n : Int) : List (Int × RootRec) :=
  (List.range n.toNat).map (fun i => ((i : Int) + 1, { configs := [], energy := none }))

/-- Initial loop state (source lines 63-66). -/
def initState (n : Int) : PState :=
  { roots := initRoots n, current_root := 0, config_count := 0, in_config_section := false }

/-- Model of `parse_ras_weights` (source lines 60-115).  When
`detect_num_roots` returns `None`, line 63's `range(1, None + 1)` raises
an uncaught `TypeError`. -/
def parse_ras_weights (lines : List Line) (threshold : ℚ) :
    Except PyErr (List (Int × RootRec)) :=
  match detect_num_roots lines with
  | none => .error .typeError
  | some n => (processLines threshold lines (initState n)).map PState.roots

/-- Energy-difference emission logic of `main` (source lines 212-216).
Python's `if planar_energy and nonplanar_energy:` tests truthiness, so an
energy equal to `0.0` (or `None`) suppresses the line. -/
def energy_diff_line (planar nonplanar : Option ℚ) : Option ℚ :=
  match planar, nonplanar with
  | some pe, some ne => if pe ≠ 0 ∧ ne ≠ 0 then some ((ne - pe) * (272114 / 10000)) else none
  | _, _ => none

/-- The label library `CONFIG_LABELS` (source lines 15-25), as an
association list from configuration strings to label strings. -/
def CONFIG_LABELS : List (List Char × String) :=
  [(str ("2222222u000000"), "$\\pi_1^*$"),
   (str ("222222200u0000"), "$\\pi_3^*$"),
   (str ("22222220u00000"), "$\\pi_2^*$"),
   (str ("22222u22000000"), "$\\pi\\pi_2^*$+$\\pi_2^*$"),
   (str ("222222200000u0"), "$\\pi_4^*$"),
   (str ("2222222000u000"), "$\\sigma_\x7bNO\x7d^*$"),
   (str ("22222220000u00"), "$\\sigma_\x7b\x7bCCl\x7d_1\x7d^*$"),
   (str ("2222222000000u"), "$\\sigma_\x7b\x7bCCl\x7d_2\x7d^*$")]

/-- Model of `map_config_to_label` (source lines 117-127): dictionary
lookup with the configuration itself as default. -/
def map_config_to_label (config : List Char) : String :=
  match lookupKey CONFIG_LABELS config with
  | some label => label
  | none => String.mk config

/-! ## Association-list helper lemmas -/

theorem lookupKey_setKey_self {α β : Type} [DecidableEq α]
    (l : List (α × β)) (k : α) (v : β) :
    lookupKey (setKey l k v) k = some v := by
  induction l with
  | nil => simp [setKey, lookupKey]
  | cons p rest ih =>
    obtain ⟨k', v'⟩ := p
    by_cases h : k' = k
    · simp [setKey, lookupKey, h]
    · simp [setKey, lookupKey, h, ih]

theorem lookupKey_setKey_ne {α β : Type} [DecidableEq α]
    (l : List (α × β)) (k k' : α) (v : β) (h : k' ≠ k) :
    lookupKey (setKey l k v) k' = lookupKey l k' := by
  induction l with
  | nil => simp [setKey, lookupKey, Ne.symm h]
  | cons p rest ih =>
    obtain ⟨k'', v''⟩ := p
    by_cases hk : k'' = k
    · subst hk
      simp [setKey, lookupKey, Ne.symm h]
    · by_cases hk' : k'' = k'
      · subst hk'
        simp [setKey, lookupKey, h, hk]
      · simp [setKey, lookupKey, hk, hk', ih]

theorem lookupKey_map_fst_setKey {α β : Type} [DecidableEq α]
    (l : List (α × β)) (k : α) (v w : β) (h : lookupKey l k = some w) :
    (setKey l k v).map Prod.fst = l.map Prod.fst := by
  induction l with
  | nil => simp [lookupKey] at h
  | cons p rest ih =>
    obtain ⟨k', v'⟩ := p
    by_cases hk : k' = k
    · simp [setKey, hk]
    · simp [lookupKey, hk] at h
      simp [setKey, hk, ih h]

theorem lookupKey_isSome_of_map_fst {α β : Type} [DecidableEq α]
    (l l' : List (α × β)) (h : l.map Prod.fst = l'.map Prod.fst) (k : α) :
    (lookupKey l k).isSome = (lookupKey l' k).isSome := by
  induction l generalizing l' with
  | nil =>
    cases l' with
    | nil => rfl
    | cons q m => simp at h
  | cons p rest ih =>
    cases l' with
    | nil => simp at h
    | cons q m =>
      obtain ⟨k1, v1⟩ := p
      obtain ⟨k2, v2⟩ := q
      simp at h
      obtain ⟨hk, hm⟩ := h
      subst hk
      by_cases hkk : k1 = k
      · simp [lookupKey, hkk]
      · simp [lookupKey, hkk, ih m hm]

theorem lookupKey_all_default {α β : Type} [DecidableEq α] (d : β) :
    ∀ (l : List (α × β)), (∀ p ∈ l, p.2 = d) →
      ∀ k v, lookupKey l k = some v → v = d := by
  intro l
  induction l with
  | nil => intro _ k v h; simp [lookupKey] at h
  | cons p rest ih =>
    intro hl k v h
    obtain ⟨k', v'⟩ := p
    by_cases hk : k' = k
    · rw [lookupKey, if_pos hk] at h
      injection h with h'
      have := hl (k', v') (by simp)
      simp at this
      rw [← h']
      exact this
    · rw [lookupKey, if_neg hk] at h
      exact ih (fun q hq => hl q (List.mem_cons_of_mem _ hq)) k v h

theorem initRoots_snd (n : Int) :
    ∀ p ∈ initRoots n, p.2 = ({ configs := [], energy := none } : RootRec) := by
  intro p hp
  simp [initRoots] at hp
  obtain ⟨i, _, rfl⟩ := hp
  rfl

/-! ## Step lemmas about `configStep` and `energyStep` -/

/-- What admits a configuration: some line whose stripped form matches the
configuration pattern with this exact 14-character token in field 2, whose
coefficient clears the threshold, and whose fourth field times 100 is the
stored weight. -/
def GoodCfgLine (th : ℚ) (l : Line) (conf : List Char) (w : ℚ) : Prop :=
  conf.length = 14 ∧
  ∃ g1 g3 g4 coeff w4,
    configMatch (pyStrip l) = some (g1, conf, g3, g4) ∧
    pyFloat g3 = some coeff ∧ pyFloat g4 = some w4 ∧
    th ≤ |coeff| ∧ w = w4 * 100

theorem configStep_ok_configs (th : ℚ) (line : Line) (s s' : PState)
    (h : configStep th line s = .ok s') :
    ∀ r rec' conf w, lookupKey s'.roots r = some rec' →
      lookupKey rec'.configs conf = some w →
      (∃ rec, lookupKey s.roots r = some rec ∧ lookupKey rec.configs conf = some w) ∨
      GoodCfgLine th line conf w := by
  intro r rec' conf w hr hc
  unfold configStep at h
  split at h
  · cases h
    exact Or.inl ⟨rec', hr, hc⟩
  · split at h
    · rename_i g1 conf0 g3 g4 heq
      split at h
      · cases h
        exact Or.inl ⟨rec', hr, hc⟩
      · rename_i hlen
        split at h
        · cases h
          exact Or.inl ⟨rec', hr, hc⟩
        · rename_i coeff hg3
          split at h
          · cases h
            exact Or.inl ⟨rec', hr, hc⟩
          · rename_i w4 hg4
            split at h
            · rename_i hth
              split at h
              · simp at h
              · rename_i rec hrec
                cases h
                dsimp only at hr
                by_cases hrr : r = s.current_root
                · subst hrr
                  rw [lookupKey_setKey_self] at hr
                  injection hr with hr'
                  subst hr'
                  dsimp only at hc
                  by_cases hcc : conf = conf0
                  · subst hcc
                    rw [lookupKey_setKey_self] at hc
                    injection hc with hc'
                    exact Or.inr ⟨not_ne_iff.mp hlen,
                      g1, g3, g4, coeff, w4, heq, hg3, hg4, hth, hc'.symm⟩
                  · rw [lookupKey_setKey_ne _ _ _ _ hcc] at hc
                    exact Or.inl ⟨rec, hrec, hc⟩
                · rw [lookupKey_setKey_ne _ _ _ _ hrr] at hr
                  exact Or.inl ⟨rec', hr, hc⟩
            · cases h
              exact Or.inl ⟨rec', hr, hc⟩
    · split at h
      · cases h
        exact Or.inl ⟨rec', hr, hc⟩
      · split at h
        · cases h
          exact Or.inl ⟨rec', hr, hc⟩
        · cases h
          exact Or.inl ⟨rec', hr, hc⟩

theorem energyStep_ok_configs (nl : Line) (r : Int)
    (roots roots' : List (Int × RootRec)) (h : energyStep nl r roots = .ok roots') :
    ∀ r' rec', lookupKey roots' r' = some rec' →
      ∃ rec, lookupKey roots r' = some rec ∧ rec'.configs = rec.configs := by
  intro r' rec' hr
  unfold energyStep at h
  split at h
  · split at h
    · cases h
      exact ⟨rec', hr, rfl⟩
    · split at h
      · cases h
        exact ⟨rec', hr, rfl⟩
      · split at h
        · simp at h
        · rename_i rec hrec
          cases h
          by_cases hrr : r' = r
          · subst hrr
            rw [lookupKey_setKey_self] at hr
            injection hr with hr'
            subst hr'
            exact ⟨rec, hrec, rfl⟩
          · rw [lookupKey_setKey_ne _ _ _ _ hrr] at hr
            exact ⟨rec', hr, rfl⟩
  · cases h
    exact ⟨rec', hr, rfl⟩

theorem processLines_configs_origin (th : ℚ) (lines : List Line) (s : PState) :
    ∀ s', processLines th lines s = .ok s' →
      ∀ r rec' conf w, lookupKey s'.roots r = some rec' →
        lookupKey rec'.configs conf = some w →
        (∃ rec, lookupKey s.roots r = some rec ∧ lookupKey rec.configs conf = some w) ∨
        ∃ l ∈ lines, GoodCfgLine th l conf w := by
  induction lines, s using processLines.induct th with
  | case1 s =>
    intro s' h r rec' conf w hr hc
    simp only [processLines] at h
    cases h
    exact Or.inl ⟨rec', hr, hc⟩
  | case2 line rest s hroot hlast =>
    intro s' h
    simp [processLines, hroot, hlast] at h
  | case3 line rest s hroot tok hlast hint =>
    intro s' h
    simp [processLines, hroot, hlast, hint] at h
  | case4 line s hroot tok hlast e hint =>
    intro s' h
    simp [processLines, hroot, hlast, hint] at h
  | case5 line s hroot tok hlast e hint nl rest' e1 hen =>
    intro s' h
    simp [processLines, hroot, hlast, hint, hen] at h
  | case6 line s hroot tok hlast e hint nl rest' roots' hen ih =>
    intro s' h r rec' conf w hr hc
    simp only [processLines, hroot, hlast, hint, hen, if_true] at h
    rcases ih s' h r rec' conf w hr hc with ⟨rec0, hr0, hc0⟩ | ⟨l, hl, hg⟩
    · obtain ⟨rec1, hr1, hcfg⟩ := energyStep_ok_configs nl e s.roots roots' hen r rec0 hr0
      refine Or.inl ⟨rec1, hr1, ?_⟩
      rw [← hcfg]
      exact hc0
    · exact Or.inr ⟨l, by simp [hl], hg⟩
  | case7 line rest s hroot hguard e hcs =>
    intro s' h
    simp [processLines, hroot, hguard, hcs] at h
  | case8 line rest s hroot hguard s2 hcs ih =>
    intro s' h r rec' conf w hr hc
    simp only [processLines, hroot, hguard, hcs, if_true, if_false, and_self,
      if_neg hroot, if_pos hguard] at h
    rcases ih s' h r rec' conf w hr hc with ⟨rec0, hr0, hc0⟩ | ⟨l, hl, hg⟩
    · rcases configStep_ok_configs th line s s2 hcs r rec0 conf w hr0 hc0 with
        ⟨rec1, hr1, hc1⟩ | hgood
      · exact Or.inl ⟨rec1, hr1, hc1⟩
      · exact Or.inr ⟨line, by simp, hgood⟩
    · exact Or.inr ⟨l, by simp [hl], hg⟩
  | case9 line rest s hroot hguard ih =>
    intro s' h r rec' conf w hr hc
    simp only [processLines, if_neg hroot, if_neg hguard] at h
    rcases ih s' h r rec' conf w hr hc with ⟨rec0, hr0, hc0⟩ | ⟨l, hl, hg⟩
    · exact Or.inl ⟨rec0, hr0, hc0⟩
    · exact Or.inr ⟨l, by simp [hl], hg⟩

/-! ## Threshold-monotonicity machinery -/

/-- Every configuration key present in `b` is also present in `a`. -/
def RootsSub (a b : List (Int × RootRec)) : Prop :=
  ∀ r rec2 conf w, lookupKey b r = some rec2 → lookupKey rec2.configs conf = some w →
    ∃ rec1 w1, lookupKey a r = some rec1 ∧ lookupKey rec1.configs conf = some w1

theorem RootsSub_setKey_both (a b : List (Int × RootRec)) (k : Int)
    (rec1 rec2 : RootRec) (conf0 : List Char) (w1 w2 : ℚ)
    (hsub : RootsSub a b)
    (ha : lookupKey a k = some rec1) (hb : lookupKey b k = some rec2) :
    RootsSub (setKey a k { rec1 with configs := setKey rec1.configs conf0 w1 })
      (setKey b k { rec2 with configs := setKey rec2.configs conf0 w2 }) := by
  intro r rec2' conf w hr2 hc2
  by_cases hrk : r = k
  · subst hrk
    rw [lookupKey_setKey_self] at hr2
    injection hr2 with hr2'
    subst hr2'
    dsimp only at hc2
    by_cases hcc : conf = conf0
    · subst hcc
      exact ⟨_, w1, lookupKey_setKey_self _ _ _, by
        dsimp only
        rw [lookupKey_setKey_self]⟩
    · rw [lookupKey_setKey_ne _ _ _ _ hcc] at hc2
      obtain ⟨rec1', w1', ha', hca'⟩ := hsub r rec2 conf w hb hc2
      rw [ha] at ha'
      injection ha' with ha''
      subst ha''
      refine ⟨_, w1', lookupKey_setKey_self _ _ _, ?_⟩
      dsimp only
      rw [lookupKey_setKey_ne _ _ _ _ hcc]
      exact hca'
  · rw [lookupKey_setKey_ne _ _ _ _ hrk] at hr2
    obtain ⟨rec1', w1', ha', hca'⟩ := hsub r rec2' conf w hr2 hc2
    refine ⟨rec1', w1', ?_, hca'⟩
    rw [lookupKey_setKey_ne _ _ _ _ hrk]
    exact ha'

theorem RootsSub_setKey_left (a b : List (Int × RootRec)) (k : Int)
    (rec1 : RootRec) (conf0 : List Char) (w1 : ℚ)
    (hsub : RootsSub a b) (ha : lookupKey a k = some rec1) :
    RootsSub (setKey a k { rec1 with configs := setKey rec1.configs conf0 w1 }) b := by
  intro r rec2' conf w hr2 hc2
  obtain ⟨rec1', w1', ha', hca'⟩ := hsub r rec2' conf w hr2 hc2
  by_cases hrk : r = k
  · subst hrk
    rw [ha] at ha'
    injection ha' with ha''
    subst ha''
    by_cases hcc : conf = conf0
    · subst hcc
      refine ⟨_, w1, lookupKey_setKey_self _ _ _, ?_⟩
      dsimp only
      rw [lookupKey_setKey_self]
    · refine ⟨_, w1', lookupKey_setKey_self _ _ _, ?_⟩
      dsimp only
      rw [lookupKey_setKey_ne _ _ _ _ hcc]
      exact hca'
  · refine ⟨rec1', w1', ?_, hca'⟩
    rw [lookupKey_setKey_ne _ _ _ _ hrk]
    exact ha'

theorem energyStep_mono (nl : Line) (r : Int) (a b a' b' : List (Int × RootRec))
    (hsub : RootsSub a b)
    (h1 : energyStep nl r a = .ok a') (h2 : energyStep nl r b = .ok b') :
    RootsSub a' b' := by
  by_cases hkey : containsSub energyKey nl = true
  · cases hget : (pySplitWS nl)[1]? with
    | none =>
      simp [energyStep, hkey, hget] at h1 h2
      subst h1
      subst h2
      exact hsub
    | some etok =>
      cases hfl : pyFloat etok with
      | none =>
        simp [energyStep, hkey, hget, hfl] at h1 h2
        subst h1
        subst h2
        exact hsub
      | some e =>
        cases hrec1 : lookupKey a r with
        | none => simp [energyStep, hkey, hget, hfl, hrec1] at h1
        | some rec1 =>
          cases hrec2 : lookupKey b r with
          | none => simp [energyStep, hkey, hget, hfl, hrec2] at h2
          | some rec2 =>
            simp [energyStep, hkey, hget, hfl, hrec1, hrec2] at h1 h2
            subst h1
            subst h2
            intro r' rec2' conf w hr2 hc2
            by_cases hrr : r' = r
            · subst hrr
              rw [lookupKey_setKey_self] at hr2
              injection hr2 with hr2'
              subst hr2'
              dsimp only at hc2
              obtain ⟨rec1', w1, ha', hca'⟩ := hsub r' rec2 conf w hrec2 hc2
              rw [hrec1] at ha'
              injection ha' with ha''
              subst ha''
              exact ⟨_, w1, lookupKey_setKey_self _ _ _, hca'⟩
            · rw [lookupKey_setKey_ne _ _ _ _ hrr] at hr2
              obtain ⟨rec1', w1, ha', hca'⟩ := hsub r' rec2' conf w hr2 hc2
              refine ⟨rec1', w1, ?_, hca'⟩
              rw [lookupKey_setKey_ne _ _ _ _ hrr]
              exact ha'
  · simp [energyStep, hkey] at h1 h2
    subst h1
    subst h2
    exact hsub

theorem configStep_mono (t1 t2 : ℚ) (hle : t1 ≤ t2) (line : Line) (s1 s2 s1' s2' : PState)
    (hcur : s1.current_root = s2.current_root)
    (hflag : s1.in_config_section = s2.in_config_section)
    (hsub : RootsSub s1.roots s2.roots)
    (h1 : configStep t1 line s1 = .ok s1') (h2 : configStep t2 line s2 = .ok s2') :
    s1'.current_root = s2'.current_root ∧
      s1'.in_config_section = s2'.in_config_section ∧
      RootsSub s1'.roots s2'.roots := by
  cases hm : configMatch (pyStrip line) with
  | none =>
    by_cases hnat : containsSub naturalPhrase line = true
    · simp [configStep, hm, hnat] at h1 h2
      subst h1
      subst h2
      exact ⟨hcur, hflag, hsub⟩
    · by_cases hsep : (containsSub dashes4 line || containsSub equals4 line) = true
      · simp [configStep, hm, hnat, hsep] at h1 h2
        subst h1
        subst h2
        exact ⟨hcur, hflag, hsub⟩
      · simp [configStep, hm, hnat, hsep] at h1 h2
        subst h1
        subst h2
        exact ⟨hcur, hflag, hsub⟩
  | some g =>
    obtain ⟨g1, conf0, g3, g4⟩ := g
    by_cases hlen : conf0.length ≠ 14
    · simp [configStep, hm, hlen] at h1 h2
      subst h1
      subst h2
      exact ⟨hcur, hflag, hsub⟩
    · cases hfl3 : pyFloat g3 with
      | none =>
        simp [configStep, hm, hlen, hfl3] at h1 h2
        subst h1
        subst h2
        exact ⟨hcur, hflag, hsub⟩
      | some coeff =>
        cases hfl4 : pyFloat g4 with
        | none =>
          simp [configStep, hm, hlen, hfl3, hfl4] at h1 h2
          subst h1
          subst h2
          exact ⟨hcur, hflag, hsub⟩
        | some w4 =>
          by_cases hth2 : t2 ≤ |coeff|
          · have hth1 : t1 ≤ |coeff| := le_trans hle hth2
            cases hrec1 : lookupKey s1.roots s1.current_root with
            | none => simp [configStep, hm, hlen, hfl3, hfl4, hth1, hrec1] at h1
            | some rec1 =>
              cases hrec2 : lookupKey s2.roots s2.current_root with
              | none => simp [configStep, hm, hlen, hfl3, hfl4, hth2, hrec2] at h2
              | some rec2 =>
                simp [configStep, hm, hlen, hfl3, hfl4, hth1, hth2, hrec1, hrec2] at h1 h2
                subst h1
                subst h2
                refine ⟨hcur, hflag, ?_⟩
                rw [← hcur] at hrec2 ⊢
                exact RootsSub_setKey_both _ _ _ _ _ _ _ _ hsub hrec1 hrec2
          · by_cases hth1 : t1 ≤ |coeff|
            · cases hrec1 : lookupKey s1.roots s1.current_root with
              | none => simp [configStep, hm, hlen, hfl3, hfl4, hth1, hrec1] at h1
              | some rec1 =>
                simp [configStep, hm, hlen, hfl3, hfl4, hth1, hth2, hrec1] at h1 h2
                subst h1
                subst h2
                refine ⟨hcur, hflag, ?_⟩
                exact RootsSub_setKey_left _ _ _ _ _ _ hsub hrec1
            · simp [configStep, hm, hlen, hfl3, hfl4, hth1, hth2] at h1 h2
              subst h1
              subst h2
              exact ⟨hcur, hflag, hsub⟩

theorem processLines_mono (t1 t2 : ℚ) (hle : t1 ≤ t2) (lines : List Line) (s1 : PState) :
    ∀ s2 s1' s2', s1.current_root = s2.current_root →
      s1.in_config_section = s2.in_config_section →
      RootsSub s1.roots s2.roots →
      processLines t1 lines s1 = .ok s1' → processLines t2 lines s2 = .ok s2' →
      s1'.current_root = s2'.current_root ∧
        s1'.in_config_section = s2'.in_config_section ∧
        RootsSub s1'.roots s2'.roots := by
  induction lines, s1 using processLines.induct t1 with
  | case1 s =>
    intro s2 s1' s2' hcur hflag hsub h1 h2
    simp only [processLines] at h1 h2
    cases h1
    cases h2
    exact ⟨hcur, hflag, hsub⟩
  | case2 line rest s hroot hlast =>
    intro s2 s1' s2' hcur hflag hsub h1 h2
    simp [processLines, hroot, hlast] at h1
  | case3 line rest s hroot tok hlast hint =>
    intro s2 s1' s2' hcur hflag hsub h1 h2
    simp [processLines, hroot, hlast, hint] at h1
  | case4 line s hroot tok hlast e hint =>
    intro s2 s1' s2' hcur hflag hsub h1 h2
    simp [processLines, hroot, hlast, hint] at h1
  | case5 line s hroot tok hlast e hint nl rest' e1 hen =>
    intro s2 s1' s2' hcur hflag hsub h1 h2
    simp [processLines, hroot, hlast, hint, hen] at h1
  | case6 line s hroot tok hlast e hint nl rest' roots1' hen ih =>
    intro s2 s1' s2' hcur hflag hsub h1 h2
    simp only [processLines, hroot, hlast, hint, hen, if_true] at h1
    cases hen2 : energyStep nl e s2.roots with
    | error e2 => simp [processLines, hroot, hlast, hint, hen2] at h2
    | ok roots2' =>
      simp only [processLines, hroot, hlast, hint, hen2, if_true] at h2
      exact ih ⟨roots2', e, 0, true⟩ s1' s2' rfl rfl
        (energyStep_mono nl e s.roots s2.roots roots1' roots2' hsub hen hen2) h1 h2
  | case7 line rest s hroot hguard e hcs =>
    intro s2 s1' s2' hcur hflag hsub h1 h2
    simp [processLines, hroot, hguard, hcs] at h1
  | case8 line rest s hroot hguard s12 hcs ih =>
    intro s2 s1' s2' hcur hflag hsub h1 h2
    simp only [processLines, hcs, if_neg hroot, if_pos hguard] at h1
    have hguard2 : s2.in_config_section = true ∧ s2.current_root > 0 := by
      rw [← hflag, ← hcur]
      exact hguard
    cases hcs2 : configStep t2 line s2 with
    | error e2 => simp [processLines, hcs2, if_neg hroot, if_pos hguard2] at h2
    | ok s22 =>
      simp only [processLines, hcs2, if_neg hroot, if_pos hguard2] at h2
      obtain ⟨hc', hf', hs'⟩ :=
        configStep_mono t1 t2 hle line s s2 s12 s22 hcur hflag hsub hcs hcs2
      exact ih _ s1' s2' hc' hf' hs' h1 h2
  | case9 line rest s hroot hguard ih =>
    intro s2 s1' s2' hcur hflag hsub h1 h2
    simp only [processLines, if_neg hroot, if_neg hguard] at h1
    have hguard2 : ¬(s2.in_config_section = true ∧ s2.current_root > 0) := by
      rw [← hflag, ← hcur]
      exact hguard
    simp only [processLines, if_neg hroot, if_neg hguard2] at h2
    exact ih _ s1' s2' hcur hflag hsub h1 h2

/-! ## Energy-preservation lemmas -/

theorem configStep_energy (th : ℚ) (line : Line) (s s' : PState)
    (h : configStep th line s = .ok s') :
    ∀ r, (lookupKey s'.roots r).map RootRec.energy
      = (lookupKey s.roots r).map RootRec.energy := by
  intro r
  cases hm : configMatch (pyStrip line) with
  | none =>
    by_cases hnat : containsSub naturalPhrase line = true
    · simp [configStep, hm, hnat] at h
      subst h
      rfl
    · by_cases hsep : (containsSub dashes4 line || containsSub equals4 line) = true
      · simp [configStep, hm, hnat, hsep] at h
        subst h
        rfl
      · simp [configStep, hm, hnat, hsep] at h
        subst h
        rfl
  | some g =>
    obtain ⟨g1, conf0, g3, g4⟩ := g
    by_cases hlen : conf0.length ≠ 14
    · simp [configStep, hm, hlen] at h
      subst h
      rfl
    · cases hfl3 : pyFloat g3 with
      | none =>
        simp [configStep, hm, hlen, hfl3] at h
        subst h
        rfl
      | some coeff =>
        cases hfl4 : pyFloat g4 with
        | none =>
          simp [configStep, hm, hlen, hfl3, hfl4] at h
          subst h
          rfl
        | some w4 =>
          by_cases hth : th ≤ |coeff|
          · cases hrec : lookupKey s.roots s.current_root with
            | none => simp [configStep, hm, hlen, hfl3, hfl4, hth, hrec] at h
            | some rec =>
              simp [configStep, hm, hlen, hfl3, hfl4, hth, hrec] at h
              subst h
              dsimp only
              by_cases hrr : r = s.current_root
              · subst hrr
                rw [lookupKey_setKey_self, hrec]
                rfl
              · rw [lookupKey_setKey_ne _ _ _ _ hrr]
          · simp [configStep, hm, hlen, hfl3, hfl4, hth] at h
            subst h
            rfl

theorem processLines_energy_pres (th : ℚ) (lines : List Line) (s : PState) :
    ∀ s', processLines th lines s = .ok s' →
      (∀ l ∈ lines, containsSub energyKey l = false) →
      ∀ r, (lookupKey s'.roots r).map RootRec.energy
        = (lookupKey s.roots r).map RootRec.energy := by
  induction lines, s using processLines.induct th with
  | case1 s =>
    intro s' h _ r
    simp only [processLines] at h
    cases h
    rfl
  | case2 line rest s hroot hlast =>
    intro s' h _
    simp [processLines, hroot, hlast] at h
  | case3 line rest s hroot tok hlast hint =>
    intro s' h _
    simp [processLines, hroot, hlast, hint] at h
  | case4 line s hroot tok hlast e hint =>
    intro s' h _
    simp [processLines, hroot, hlast, hint] at h
  | case5 line s hroot tok hlast e hint nl rest' e1 hen =>
    intro s' h _
    simp [processLines, hroot, hlast, hint, hen] at h
  | case6 line s hroot tok hlast e hint nl rest' roots' hen ih =>
    intro s' h hno r
    simp only [processLines, hroot, hlast, hint, hen, if_true] at h
    have hkey : containsSub energyKey nl = false := hno nl (by simp)
    rw [energyStep] at hen
    rw [if_neg (by simp [hkey])] at hen
    injection hen with hen'
    have := ih s' h (fun l hl => hno l (by simp [hl])) r
    rw [this]
    dsimp only
    rw [← hen']
  | case7 line rest s hroot hguard e hcs =>
    intro s' h _
    simp [processLines, hroot, hguard, hcs] at h
  | case8 line rest s hroot hguard s2 hcs ih =>
    intro s' h hno r
    simp only [processLines, hcs, if_neg hroot, if_pos hguard] at h
    have := ih s' h (fun l hl => hno l (by simp [hl])) r
    rw [this, configStep_energy th line s s2 hcs r]
  | case9 line rest s hroot hguard ih =>
    intro s' h hno r
    simp only [processLines, if_neg hroot, if_neg hguard] at h
    exact ih s' h (fun l hl => hno l (by simp [hl])) r

/-! ## Concrete log texts used by the claim theorems -/

/-- A log with two roots declared, one root block, a dash separator line,
and a configuration line placed after the separator. -/
def logT1 : List Line :=
  [str ("ciroot = 2 2 1"),
   str ("printout of CI-coefficients larger than 0.05 1"),
   str (" energy= -1.5 "),
   str ("  ----------------"),
   str ("  1  22222220u00000  -0.95  0.90")]

/-- A log whose root-start line has a non-integer trailing token. -/
def logT3 : List Line :=
  [str ("ciroot = 1 1 1"),
   str ("printout of CI-coefficients larger than 0.05")]

/-- A log declaring one root whose root marker names root 2. -/
def logT4 : List Line :=
  [str ("ciroot = 1 1 1"),
   str ("printout of CI-coefficients larger than 2"),
   str (" energy= -1.0 ")]

/-- A well-formed single-root log with one configuration line. -/
def logT5 : List Line :=
  [str ("ciroot = 1 1 1"),
   str ("printout of CI-coefficients larger than 1"),
   str (" energy= -1.0 "),
   str ("1 22222220u00000 -0.95 0.90")]

/-- A single root block whose energy line reads `-1.0`. -/
def logT6a : List Line :=
  [str ("ciroot = 1 1 1"),
   str ("printout of CI-coefficients larger than 0.05 1"),
   str (" energy= -1.0 ")]

/-- `logT6a` followed by a second block for the same root with energy
`-2.0`. -/
def logT6b : List Line :=
  logT6a ++
  [str ("printout of CI-coefficients larger than 0.05 1"),
   str (" energy= -2.0 ")]

/-- A well-formed single-root log with one configuration line, used for
the monotonicity witness. -/
def logT8 : List Line :=
  [str ("ciroot = 1 1 1"),
   str ("printout of CI-coefficients larger than 1"),
   str (" energy= -1.0 "),
   str ("1 22222220u00000 -0.90 0.81")]

/-- The 14-character configuration token of the sample logs. -/
def conf14 : List Char := str ("22222220u00000")

/-! ## Claim theorems -/

/-- C1 (code bug in the source, exhibited on the model): a line consisting
of a dash run, read while `in_config_section` is true and
`current_root > 0`, does NOT end the section — the state is returned
unchanged, because the early `continue` for non-matching lines (source
lines 89-90) is taken before the end-of-section `elif`s (lines 110-113)
ever run; consequently a configuration line placed after the separator is
still recorded.  The claim says the separator sets
`in_config_section = false`. -/
theorem C1_section_end_unreachable :
    processLines (2/10) [str ("  ----------------")] ⟨initRoots 2, 1, 0, true⟩ =
      .ok ⟨initRoots 2, 1, 0, true⟩ ∧
    parse_ras_weights logT1 (2/10) =
      .ok [(1, { configs := [(conf14, 90)], energy := some (-(3/2)) }),
           (2, { configs := [], energy := none })] := by
  constructor
  · with_unfolding_all rfl
  · with_unfolding_all rfl

/-- C2 (code bug in the source, exhibited on the model): on a log with no
`ciroot` line, `detect_num_roots` executes the bare `return` of source
line 58 and yields Python `None` (not the documented default 7), and
`parse_ras_weights` then raises `TypeError` at `range(1, None + 1)`
(source line 63) instead of proceeding with 7 roots. -/
theorem C2_no_ciroot_returns_none :
    detect_num_roots [str ("MNDO calculation")] = none ∧
    parse_ras_weights [str ("MNDO calculation")] (2/10) = .error .typeError := by
  constructor
  · rfl
  · rfl

/-- C3 counterexample: on a log whose root-start line ends in the
non-integer token `0.05`, the pass aborts with an uncaught `ValueError`
from `int(line.split()[-1])` (source line 72) instead of skipping the
line and completing. -/
theorem C3_root_index_abort_counterexample :
    parse_ras_weights logT3 (2/10) = .error .valueError := by
  with_unfolding_all rfl

/-- C3 amended: a root-start line whose trailing token is not an integer
aborts the pass with an uncaught `ValueError` (first conjunct), while a
configuration-pattern line whose coefficient field fails `float` parsing
is skipped without state change and the pass continues (second
conjunct). -/
theorem C3_malformed_token_semantics :
    (∀ (th : ℚ) (s : PState) (line : Line) (rest : List Line) (tok : List Char),
       containsSub rootPhrase line = true →
       (pySplitWS line).getLast? = some tok → pyInt tok = none →
       processLines th (line :: rest) s = .error .valueError) ∧
    (∀ (th : ℚ) (s : PState) (line : Line) (rest : List Line)
       (g1 conf g3 g4 : List Char),
       containsSub rootPhrase line = false →
       s.in_config_section = true → s.current_root > 0 →
       configMatch (pyStrip line) = some (g1, conf, g3, g4) → pyFloat g3 = none →
       processLines th (line :: rest) s = processLines th rest s) := by
  constructor
  · intro th s line rest tok h1 h2 h3
    simp only [processLines, h1, h2, h3, if_true]
  · intro th s line rest g1 conf g3 g4 h1 h2 h3 hm hfl3
    have hcs : configStep th line s = .ok s := by
      by_cases hlen : conf.length ≠ 14
      · simp [configStep, hm, hlen]
      · simp [configStep, hm, hlen, hfl3]
    have hroot : ¬ containsSub rootPhrase line = true := by simp [h1]
    simp only [processLines, if_neg hroot, if_pos (And.intro h2 h3), hcs]

/-- C3 witness for the amended semantics, at the concrete root-start line
of `logT3` and a concrete bad-coefficient configuration line. -/
theorem C3_malformed_token_semantics_witness :
    processLines (2/10) [str ("printout of CI-coefficients larger than 0.05")]
      (initState 1) = .error .valueError ∧
    processLines (2/10) [str ("1 22222220u00000 -0.9.5 0.90")] ⟨initRoots 1, 1, 0, true⟩ =
      processLines (2/10) [] ⟨initRoots 1, 1, 0, true⟩ := by
  constructor
  · exact C3_malformed_token_semantics.1 (2/10) (initState 1)
      (str ("printout of CI-coefficients larger than 0.05")) [] (str ("0.05"))
      (by rfl) (by rfl) (by rfl)
  · exact C3_malformed_token_semantics.2 (2/10) ⟨initRoots 1, 1, 0, true⟩
      (str ("1 22222220u00000 -0.9.5 0.90")) [] (str ("1")) conf14 (str ("-0.9.5"))
      (str ("0.90")) (by rfl) (by rfl) (by decide) (by rfl) (by rfl)

/-- C4 counterexample: on a log declaring 1 root whose root marker names
root 2, storing the energy for root 2 raises an uncaught `KeyError`
(source line 80) and the pass aborts — no record is created lazily. -/
theorem C4_excess_root_counterexample :
    parse_ras_weights logT4 (2/10) = .error .keyError := by
  with_unfolding_all rfl

/-- C4 amended: a root marker whose index is not among the pre-created
records does not get a lazy record; instead, storing a parsed energy for
it (first conjunct) or recording a qualifying configuration line for it
(second conjunct) raises an uncaught `KeyError` that aborts the pass.
Markers falling short of `num_roots` leave the pre-created empty records
in place. -/
theorem C4_excess_root_keyerror :
    (∀ (th : ℚ) (s : PState) (line nl : Line) (rest : List Line)
       (tok etok : List Char) (r : Int) (e : ℚ),
       containsSub rootPhrase line = true →
       (pySplitWS line).getLast? = some tok → pyInt tok = some r →
       containsSub energyKey nl = true → (pySplitWS nl)[1]? = some etok →
       pyFloat etok = some e → lookupKey s.roots r = none →
       processLines th (line :: nl :: rest) s = .error .keyError) ∧
    (∀ (th : ℚ) (s : PState) (line : Line) (rest : List Line)
       (g1 conf g3 g4 : List Char) (coeff w4 : ℚ),
       containsSub rootPhrase line = false →
       s.in_config_section = true → s.current_root > 0 →
       configMatch (pyStrip line) = some (g1, conf, g3, g4) →
       conf.length = 14 → pyFloat g3 = some coeff → pyFloat g4 = some w4 →
       th ≤ |coeff| → lookupKey s.roots s.current_root = none →
       processLines th (line :: rest) s = .error .keyError) := by
  constructor
  · intro th s line nl rest tok etok r e h1 h2 h3 h4 h5 h6 h7
    have hen : energyStep nl r s.roots = .error .keyError := by
      simp [energyStep, h4, h5, h6, h7]
    simp only [processLines, h1, h2, h3, hen, if_true]
  · intro th s line rest g1 conf g3 g4 coeff w4 h1 h2 h3 hm hlen hfl3 hfl4 hth hlook
    have hcs : configStep th line s = .error .keyError := by
      simp [configStep, hm, not_ne_iff.mpr hlen, hfl3, hfl4, hth, hlook]
    have hroot : ¬ containsSub rootPhrase line = true := by simp [h1]
    simp only [processLines, if_neg hroot, if_pos (And.intro h2 h3), hcs]

/-- C4 witness for the amended semantics, at the root-2 marker of `logT4`
and a configuration line recorded while `current_root` is 2 but only root
1 exists. -/
theorem C4_excess_root_keyerror_witness :
    processLines (2/10)
      [str ("printout of CI-coefficients larger than 2"), str (" energy= -1.0 ")]
      (initState 1) = .error .keyError ∧
    processLines (2/10) [str ("1 22222220u00000 -0.95 0.90")] ⟨initRoots 1, 2, 0, true⟩ =
      .error .keyError := by
  constructor
  · exact C4_excess_root_keyerror.1 (2/10) (initState 1)
      (str ("printout of CI-coefficients larger than 2")) (str (" energy= -1.0 ")) []
      (str ("2")) (str ("-1.0")) 2 (-1)
      (by rfl) (by rfl) (by rfl) (by rfl) (by rfl) (by with_unfolding_all rfl) (by rfl)
  · exact C4_excess_root_keyerror.2 (2/10) ⟨initRoots 1, 2, 0, true⟩
      (str ("1 22222220u00000 -0.95 0.90")) [] (str ("1")) conf14 (str ("-0.95"))
      (str ("0.90")) (-(19/20)) (9/10)
      (by rfl) (by rfl) (by decide) (by rfl) (by rfl)
      (by with_unfolding_all rfl) (by with_unfolding_all rfl)
      (by with_unfolding_all decide) (by rfl)

/-- C5: for every input and threshold, every configuration string stored
in any RootRecord after a completed parse has length exactly 14, and some
input line admitted it: that line matches the configuration pattern with
this token as field 2, its coefficient `c` satisfies `th ≤ |c|`, and the
stored weight is the line's fourth field times 100. -/
theorem C5_config_invariants (lines : List Line) (th : ℚ) (h0 : 0 ≤ th)
    (roots : List (Int × RootRec)) (r : Int) (rec : RootRec)
    (conf : List Char) (w : ℚ)
    (hp : parse_ras_weights lines th = .ok roots)
    (hr : lookupKey roots r = some rec)
    (hc : lookupKey rec.configs conf = some w) :
    conf.length = 14 ∧ ∃ l ∈ lines, GoodCfgLine th l conf w := by
  cases hd : detect_num_roots lines with
  | none => simp [parse_ras_weights, hd] at hp
  | some n =>
    simp only [parse_ras_weights, hd] at hp
    cases hps : processLines th lines (initState n) with
    | error e =>
      rw [hps] at hp
      simp [Except.map] at hp
    | ok s' =>
      rw [hps] at hp
      simp [Except.map] at hp
      subst hp
      rcases processLines_configs_origin th lines (initState n) s' hps r rec conf w hr hc with
        ⟨rec0, hr0, hc0⟩ | ⟨l, hl, hg⟩
      · have hrec0 : rec0 = ({ configs := [], energy := none } : RootRec) :=
          lookupKey_all_default _ (initRoots n) (initRoots_snd n) r rec0 hr0
        rw [hrec0] at hc0
        simp [lookupKey] at hc0
      · exact ⟨hg.1, l, hl, hg⟩

/-- C5 witness at the concrete log `logT5` with threshold `1/5`. -/
theorem C5_config_invariants_witness :
    conf14.length = 14 ∧ ∃ l ∈ logT5, GoodCfgLine (1/5) l conf14 90 := by
  exact C5_config_invariants logT5 (1/5) (by with_unfolding_all decide)
    [(1, { configs := [(conf14, 90)], energy := some (-1) })] 1
    { configs := [(conf14, 90)], energy := some (-1) } conf14 90
    (by with_unfolding_all rfl) (by rfl) (by rfl)

/-- C6 counterexample: parsing `logT6a` stores energy `-1` for root 1,
but appending a second block for the same root with energy line `-2.0`
(`logT6b`) leaves the final stored energy at `-2`: the assignment of
source line 80 is unconditional, so a later root-start block overwrites an
already-set energy, contradicting "set at most once, first value wins". -/
theorem C6_energy_overwrite_counterexample :
    parse_ras_weights logT6a (2/10) = .ok [(1, { configs := [], energy := some (-1) })] ∧
    parse_ras_weights logT6b (2/10) = .ok [(1, { configs := [], energy := some (-2) })] := by
  constructor
  · with_unfolding_all rfl
  · with_unfolding_all rfl

/-- C6 amended: the energy of a RootRecord holds the most recently parsed
value: every root-start block whose following line contains "energy=" with
a parseable second token overwrites the stored energy (first conjunct),
and if no line of the input contains "energy=" at all, every record's
energy is left as it started, in particular unset (second conjunct). -/
theorem C6_energy_last_write :
    (∀ (th : ℚ) (s : PState) (line nl : Line) (rest : List Line)
       (tok etok : List Char) (r : Int) (e : ℚ) (rec : RootRec),
       containsSub rootPhrase line = true →
       (pySplitWS line).getLast? = some tok → pyInt tok = some r →
       containsSub energyKey nl = true → (pySplitWS nl)[1]? = some etok →
       pyFloat etok = some e → lookupKey s.roots r = some rec →
       processLines th (line :: nl :: rest) s =
         processLines th rest ⟨setKey s.roots r { rec with energy := some e }, r, 0, true⟩) ∧
    (∀ (th : ℚ) (lines : List Line) (s s' : PState),
       processLines th lines s = .ok s' →
       (∀ l ∈ lines, containsSub energyKey l = false) →
       ∀ r, (lookupKey s'.roots r).map RootRec.energy
         = (lookupKey s.roots r).map RootRec.energy) := by
  constructor
  · intro th s line nl rest tok etok r e rec h1 h2 h3 h4 h5 h6 h7
    have hen : energyStep nl r s.roots = .ok (setKey s.roots r { rec with energy := some e }) := by
      simp [energyStep, h4, h5, h6, h7]
    simp only [processLines, h1, h2, h3, hen, if_true]
  · intro th lines s s' h hno
    exact processLines_energy_pres th lines s s' h hno

/-- C6 witness: the second root-1 block of `logT6b` overwrites the energy
`-1` stored by the first block with `-2`; and a log with no "energy="
line leaves the pre-created record's energy unset. -/
theorem C6_energy_last_write_witness :
    processLines (2/10)
      [str ("printout of CI-coefficients larger than 0.05 1"), str (" energy= -2.0 ")]
      ⟨[(1, { configs := [], energy := some (-1) })], 1, 0, true⟩ =
    processLines (2/10) []
      ⟨setKey [(1, { configs := [], energy := some (-1) })] 1
        { configs := [], energy := some (-2) }, 1, 0, true⟩ ∧
    (lookupKey (initState 1).roots 1).map RootRec.energy
      = (lookupKey (initState 1).roots 1).map RootRec.energy := by
  constructor
  · exact C6_energy_last_write.1 (2/10)
      ⟨[(1, { configs := [], energy := some (-1) })], 1, 0, true⟩
      (str ("printout of CI-coefficients larger than 0.05 1")) (str (" energy= -2.0 ")) []
      (str ("1")) (str ("-2.0")) 1 (-2) { configs := [], energy := some (-1) }
      (by rfl) (by rfl) (by rfl) (by rfl) (by rfl) (by with_unfolding_all rfl) (by rfl)
  · exact C6_energy_last_write.2 1 [str ("hello")] (initState 1) (initState 1)
      (by rfl) (by decide) 1

/-- C7 counterexample: with both energies present but the planar energy
equal to `0.0`, the energy-difference line is omitted (Python's `if
planar_energy and nonplanar_energy:` tests truthiness, and `0.0` is
falsy), contradicting "if both energies are present the line appears". -/
theorem C7_zero_energy_counterexample :
    energy_diff_line (some 0) (some 1) = none ∧
    energy_diff_line (some 0) (some 1) ≠ some ((1 - 0) * (272114 / 10000)) := by
  constructor
  · rfl
  · simp [energy_diff_line]

/-- C7 amended: if both energies are present and nonzero, the report
carries the difference `(nonplanar - planar) * 27.2114` (first conjunct);
if either energy is absent — or present but zero — the line is omitted
(second conjunct).  The 4-decimal text formatting is not modelled. -/
theorem C7_energy_diff_value :
    (∀ pe ne : ℚ, pe ≠ 0 → ne ≠ 0 →
       energy_diff_line (some pe) (some ne) = some ((ne - pe) * (272114 / 10000))) ∧
    (∀ e : Option ℚ, energy_diff_line none e = none ∧ energy_diff_line e none = none ∧
       energy_diff_line (some 0) e = none ∧ energy_diff_line e (some 0) = none) := by
  constructor
  · intro pe ne hpe hne
    simp [energy_diff_line, hpe, hne]
  · intro e
    refine ⟨rfl, ?_, ?_, ?_⟩
    · cases e <;> simp [energy_diff_line]
    · cases e <;> simp [energy_diff_line]
    · cases e <;> simp [energy_diff_line]

/-- C7 witness at the spec's example energies: planar `-100.123456`,
non-planar `-100.119000` Hartree. -/
theorem C7_energy_diff_value_witness :
    energy_diff_line (some (-100123456/1000000)) (some (-100119/1000)) =
      some ((-100119/1000 - -100123456/1000000) * (272114 / 10000)) ∧
    energy_diff_line none (some 1) = none := by
  constructor
  · exact C7_energy_diff_value.1 (-100123456/1000000) (-100119/1000)
      (by with_unfolding_all decide) (by with_unfolding_all decide)
  · exact (C7_energy_diff_value.2 (some 1)).1

/-- C8: raising the threshold never adds configurations: whenever both
parses complete, every configuration string recorded for a root at the
higher threshold `t2` is also recorded for that root at the lower
threshold `t1`. -/
theorem C8_threshold_monotone (lines : List Line) (t1 t2 : ℚ)
    (r1 r2 : List (Int × RootRec)) (hle : t1 ≤ t2)
    (h1 : parse_ras_weights lines t1 = .ok r1)
    (h2 : parse_ras_weights lines t2 = .ok r2)
    (root : Int) (rec2 : RootRec) (conf : List Char) (w : ℚ)
    (hr2 : lookupKey r2 root = some rec2)
    (hc2 : lookupKey rec2.configs conf = some w) :
    ∃ rec1 w1, lookupKey r1 root = some rec1 ∧ lookupKey rec1.configs conf = some w1 := by
  cases hd : detect_num_roots lines with
  | none => simp [parse_ras_weights, hd] at h1
  | some n =>
    simp only [parse_ras_weights, hd] at h1 h2
    cases hp1 : processLines t1 lines (initState n) with
    | error e =>
      rw [hp1] at h1
      simp [Except.map] at h1
    | ok s1' =>
      cases hp2 : processLines t2 lines (initState n) with
      | error e =>
        rw [hp2] at h2
        simp [Except.map] at h2
      | ok s2' =>
        rw [hp1] at h1
        rw [hp2] at h2
        simp [Except.map] at h1 h2
        subst h1
        subst h2
        have hsub0 : RootsSub (initState n).roots (initState n).roots :=
          fun r rec conf w ha hb => ⟨rec, w, ha, hb⟩
        obtain ⟨_, _, hsub⟩ :=
          processLines_mono t1 t2 hle lines (initState n) (initState n) s1' s2'
            rfl rfl hsub0 hp1 hp2
        exact hsub root rec2 conf w hr2 hc2

/-- C8 witness at the concrete log `logT8`, thresholds `1/10 ≤ 1/5`. -/
theorem C8_threshold_monotone_witness :
    ∃ rec1 w1,
      lookupKey [(1, ({ configs := [(conf14, 81)], energy := some (-1) } : RootRec))] 1
        = some rec1 ∧ lookupKey rec1.configs conf14 = some w1 := by
  exact C8_threshold_monotone logT8 (1/10) (1/5)
    [(1, { configs := [(conf14, 81)], energy := some (-1) })]
    [(1, { configs := [(conf14, 81)], energy := some (-1) })]
    (by with_unfolding_all decide)
    (by with_unfolding_all rfl) (by with_unfolding_all rfl)
    1 { configs := [(conf14, 81)], energy := some (-1) } conf14 81
    (by rfl) (by rfl)

/-- C9: the parse pass is a pure function of the input text and the
threshold: equal inputs give equal RootRecord collections. -/
theorem C9_parse_deterministic (lines1 lines2 : List Line) (t1 t2 : ℚ)
    (hl : lines1 = lines2) (ht : t1 = t2) :
    parse_ras_weights lines1 t1 = parse_ras_weights lines2 t2 := by
  subst hl
  subst ht
  rfl

/-- C9 witness: two runs on `logT5` with threshold `1/5` agree. -/
theorem C9_parse_deterministic_witness :
    parse_ras_weights logT5 (1/5) = parse_ras_weights logT5 (1/5) :=
  C9_parse_deterministic logT5 logT5 (1/5) (1/5) rfl rfl

/-- C10: a root-start line (valid trailing integer) that is the last line
of the input makes the pass fail with the uncaught `StopIteration` of
`next(f)` (first conjunct); and the line following a root-start line is
consumed by the energy check alone: two candidate next-lines on which
`energyStep` agrees yield identical parses, so that line is never itself
examined as a configuration or root-start line (second conjunct). -/
theorem C10_next_line_consumed :
    (∀ (th : ℚ) (s : PState) (line : Line) (tok : List Char) (r : Int),
       containsSub rootPhrase line = true →
       (pySplitWS line).getLast? = some tok → pyInt tok = some r →
       processLines th [line] s = .error .stopIteration) ∧
    (∀ (th : ℚ) (s : PState) (line nl1 nl2 : Line) (rest : List Line)
       (tok : List Char) (r : Int),
       containsSub rootPhrase line = true →
       (pySplitWS line).getLast? = some tok → pyInt tok = some r →
       energyStep nl1 r s.roots = energyStep nl2 r s.roots →
       processLines th (line :: nl1 :: rest) s = processLines th (line :: nl2 :: rest) s) := by
  constructor
  · intro th s line tok r h1 h2 h3
    simp only [processLines, h1, h2, h3, if_true]
  · intro th s line nl1 nl2 rest tok r h1 h2 h3 h4
    simp only [processLines, h1, h2, h3, if_true]
    rw [h4]

/-- C10 witness: a lone root-start line errors with `StopIteration`, and
the line after a root-start line may be replaced by a root-start line (or
a configuration line) without changing the parse, since neither contains
"energy=". -/
theorem C10_next_line_consumed_witness :
    processLines (2/10) [str ("printout of CI-coefficients larger than 1")] (initState 1) =
      .error .stopIteration ∧
    processLines (2/10)
      [str ("printout of CI-coefficients larger than 1"),
       str ("1 22222220u00000 -0.95 0.90")] (initState 1) =
    processLines (2/10)
      [str ("printout of CI-coefficients larger than 1"),
       str ("printout of CI-coefficients larger than 7")] (initState 1) := by
  constructor
  · exact C10_next_line_consumed.1 (2/10) (initState 1)
      (str ("printout of CI-coefficients larger than 1")) (str ("1")) 1
      (by rfl) (by rfl) (by rfl)
  · exact C10_next_line_consumed.2 (2/10) (initState 1)
      (str ("printout of CI-coefficients larger than 1"))
      (str ("1 22222220u00000 -0.95 0.90"))
      (str ("printout of CI-coefficients larger than 7")) [] (str ("1")) 1
      (by rfl) (by rfl) (by rfl) (by rfl)
